import Mathlib

/-!
# ReachPoint core — shallow embedding and verification

This file embeds the core of the ReachPoint outbound-contact campaign engine
in Lean 4 and proves the frozen claims about it.

Embedded source files:
* `src/data/campaignProgress.ts` — the Progress Store (namespace `Store`)
* `src/data/campaignsData.ts`    — the Record Filter (namespace `Filters`)
* `src/unnamed/part_001` (screens/execution.tsx) — the Queue Navigator
  (`pickNextId`, namespace `Exec`)
* `src/unnamed/part_002` (screens/campaigns.tsx) — the local summary report
  timestamp resolution (namespace `Report`)
* `src/utils/buildCloudRows.ts`  — cloud row timestamp resolution
  (namespace `Cloud`)

Modelling conventions:
* JS objects keyed by strings (`Record<string, ContactProgress>`) become
  association lists `List (String × _)` with JS-object update semantics:
  assigning to an existing key replaces the value in place, assigning to a
  fresh key appends it.  Only key membership, per-key values and entry counts
  matter to the claims, never enumeration order of numeric-like keys.
* JS `undefined`/absent optional fields become `Option`; the idiom `x ?? []`
  becomes `Option.getD x []`.
* Timestamps (`Date.now()`, milliseconds) are `Nat` parameters threaded
  explicitly (`now`).
* `new Date(t).toISOString()` is an uninterpreted rendering parameter
  `iso : Nat → String`; the claims are about which millisecond value gets
  rendered, not about calendar arithmetic.
* JS numbers inside the filter comparisons are exact (rationals extended with
  signed infinities, `JSNumber`); `parseFloat` failure (`NaN`) is `none`.
-/

/-! ## Data model (`src/data/campaignProgress.ts`, lines 12–48) -/

inductive CallOutcome where
  | answered
  | no_answer
deriving DecidableEq

structure CallLogEntry where
  «at» : Nat
  outcome : CallOutcome
deriving DecidableEq

structure SurveyLogEntry where
  «at» : Nat
  answer : String
deriving DecidableEq

structure ContactProgress where
  contactId : String
  outcome : Option CallOutcome := none
  attempts : Nat := 0
  lastCalledAt : Option Nat := none
  logs : Option (List CallLogEntry) := none
  surveyAnswer : Option String := none
  surveyLogs : Option (List SurveyLogEntry) := none
deriving DecidableEq

structure Totals where
  total : Nat
  made : Nat
  answered : Nat
  missed : Nat
deriving DecidableEq

structure CampaignProgress where
  campaignId : String
  totals : Totals
  contacts : List (String × ContactProgress)
  completed : Bool
deriving DecidableEq

/-- JS-object lookup `m[k]` on a string-keyed object modelled as an
association list. -/
def getKey (m : List (String × ContactProgress)) (k : String) :
    Option ContactProgress :=
  match m.find? (fun kv => kv.1 == k) with
  | some (_, v) => some v
  | none => none

/-- JS-object assignment `m[k] = v`: replace in place when the key exists,
append otherwise. -/
def setKey (m : List (String × ContactProgress)) (k : String)
    (v : ContactProgress) : List (String × ContactProgress) :=
  match m with
  | [] => [(k, v)]
  | (k', v') :: rest =>
      if k' = k then (k, v) :: rest else (k', v') :: setKey rest k v

namespace Store

/-- The zeroed per-contact record
`{ contactId: id, attempts: 0, logs: [], surveyLogs: [] }` used by
`loadOrInitProgress`, `recordOutcome` and `recordSurveyResponse`. -/
def freshContact (id : String) : ContactProgress :=
  { contactId := id, attempts := 0, logs := some [], surveyLogs := some [] }

/-- The totals-recompute loop shared by `recordOutcome` (lines 123–137) and
`clearMissedOutcomes` (lines 164–175): a single pass over the contact map
counting contacts with an outcome set, answered, and missed. -/
def recount (cs : List (String × ContactProgress)) : Nat × Nat × Nat :=
  cs.foldl
    (fun acc kv =>
      match kv.2.outcome with
      | none => acc
      | some CallOutcome.answered => (acc.1 + 1, acc.2.1 + 1, acc.2.2)
      | some CallOutcome.no_answer => (acc.1 + 1, acc.2.1, acc.2.2 + 1))
    (0, 0, 0)

/-- Fresh-snapshot branch of `loadOrInitProgress` (lines 79–90). -/
def initProgress (campaignId : String) (contactIds : List String) :
    CampaignProgress :=
  { campaignId := campaignId
    totals := { total := contactIds.length, made := 0, answered := 0, missed := 0 }
    contacts := contactIds.foldl (fun m id => setKey m id (freshContact id)) []
    completed := false }

/-- The `?? []` normalisation applied to an existing contact by the
backfill loop: `logs = logs ?? []`, `surveyLogs = surveyLogs ?? []`. -/
def normalizeLogs (c : ContactProgress) : ContactProgress :=
  { c with logs := some (c.logs.getD [])
           surveyLogs := some (c.surveyLogs.getD []) }

/-- One step of the backfill loop of `loadOrInitProgress` (lines 66–74):
missing ids get a zeroed contact and bump `totals.total`; existing ids get
their `logs`/`surveyLogs` normalised with `?? []`. -/
def backfillOne (p : CampaignProgress) (id : String) : CampaignProgress :=
  match getKey p.contacts id with
  | none =>
      { p with contacts := setKey p.contacts id (freshContact id)
               totals := { p.totals with total := p.totals.total + 1 } }
  | some c =>
      { p with contacts := setKey p.contacts id (normalizeLogs c) }

/-- `loadOrInitProgress` (lines 57–91); the stored snapshot (or its absence)
is passed explicitly in place of the AsyncStorage read. -/
def loadOrInitProgress (stored : Option CampaignProgress)
    (campaignId : String) (contactIds : List String) : CampaignProgress :=
  match stored with
  | some p => contactIds.foldl backfillOne p
  | none => initProgress campaignId contactIds

/-- `recordOutcome` (lines 101–141) applied to an already-loaded snapshot;
`now` stands for `Date.now()`. -/
def recordOutcome (p : CampaignProgress) (contactId : String)
    (outcome : CallOutcome) (now : Nat) : CampaignProgress :=
  let c := (getKey p.contacts contactId).getD (freshContact contactId)
  let c := { c with
      attempts := c.attempts + 1
      lastCalledAt := some now
      outcome := some outcome
      logs := some (c.logs.getD [] ++ [{ «at» := now, outcome := outcome }])
      surveyLogs := some (c.surveyLogs.getD []) }
  let contacts := setKey p.contacts contactId c
  let counts := recount contacts
  { p with contacts := contacts
           totals := { p.totals with
               made := counts.1, answered := counts.2.1, missed := counts.2.2 } }

/-- `clearMissedOutcomes` (lines 152–178): clear every `no_answer` outcome,
then recompute `made`/`answered`/`missed` by the same full scan. -/
def clearMissedOutcomes (p : CampaignProgress) : CampaignProgress :=
  let contacts := p.contacts.map
    (fun kv =>
      if kv.2.outcome = some CallOutcome.no_answer then
        (kv.1, { kv.2 with outcome := (none : Option CallOutcome) })
      else kv)
  let counts := recount contacts
  { p with contacts := contacts
           totals := { p.totals with
               made := counts.1, answered := counts.2.1, missed := counts.2.2 } }

/-- `recordSurveyResponse` (lines 194–212): fetch-or-create the contact, set
`surveyAnswer`, append a survey log entry; totals untouched. -/
def recordSurveyResponse (p : CampaignProgress) (contactId : String)
    (answer : String) (now : Nat) : CampaignProgress :=
  let c := (getKey p.contacts contactId).getD (freshContact contactId)
  let c := { c with
      surveyAnswer := some answer
      surveyLogs := some (c.surveyLogs.getD [] ++ [{ «at» := now, answer := answer }]) }
  { p with contacts := setKey p.contacts contactId c }

/-- `clearSurveyResponse` (lines 237–253): delete `surveyAnswer` on the
contact if present, normalise `surveyLogs`; totals untouched. -/
def clearSurveyResponse (p : CampaignProgress) (contactId : String) :
    CampaignProgress :=
  match getKey p.contacts contactId with
  | none => p
  | some c =>
      let c' := { c with surveyAnswer := (none : Option String)
                         surveyLogs := some (c.surveyLogs.getD []) }
      { p with contacts := setKey p.contacts contactId c' }

end Store

/-! ## Mutation sequences

The claims quantify over sequences of Progress Store operations; an operation
is one element of `ProgOp`, applied by `applyOp`. -/

inductive ProgOp where
  | record (contactId : String) (outcome : CallOutcome) (now : Nat)
  | survey (contactId : String) (answer : String) (now : Nat)
  | clearMissed
  | clearSurvey (contactId : String)
  | load (contactIds : List String)
deriving DecidableEq

def applyOp (p : CampaignProgress) (op : ProgOp) : CampaignProgress :=
  match op with
  | ProgOp.record cid oc now => Store.recordOutcome p cid oc now
  | ProgOp.survey cid a now => Store.recordSurveyResponse p cid a now
  | ProgOp.clearMissed => Store.clearMissedOutcomes p
  | ProgOp.clearSurvey cid => Store.clearSurveyResponse p cid
  | ProgOp.load ids => Store.loadOrInitProgress (some p) p.campaignId ids

def runOps (p : CampaignProgress) (ops : List ProgOp) : CampaignProgress :=
  ops.foldl applyOp p

/-- The operations that end by recomputing `made`/`answered`/`missed` with a
full scan: `recordOutcome` and `clearMissedOutcomes`. -/
def ProgOp.recomputes : ProgOp → Bool
  | ProgOp.record _ _ _ => true
  | ProgOp.clearMissed => true
  | _ => false

/-! ## Queue Navigator (`src/unnamed/part_001`, screens/execution.tsx) -/

namespace Exec

inductive Strategy where
  | unattempted
  | missed
deriving DecidableEq

/-- The `unattempted` scan of `pickNextId` (part_001 lines 101–108): first id
(≠ skipId) whose contact is absent or has `attempts === 0`. -/
def pickUnatt (p : CampaignProgress) (skipId : Option String) :
    List String → Option String
  | [] => none
  | id :: rest =>
      if skipId = some id then pickUnatt p skipId rest
      else
        match getKey p.contacts id with
        | none => some id
        | some c => if c.attempts = 0 then some id else pickUnatt p skipId rest

/-- The `missed` scan of `pickNextId` (part_001 lines 110–116): first id
(≠ skipId) whose contact has `outcome === 'no_answer'`. -/
def pickMissed (p : CampaignProgress) (skipId : Option String) :
    List String → Option String
  | [] => none
  | id :: rest =>
      if skipId = some id then pickMissed p skipId rest
      else if (getKey p.contacts id).bind (fun c => c.outcome) =
          some CallOutcome.no_answer then some id
      else pickMissed p skipId rest

/-- `pickNextId` (part_001 lines 94–117); the component's `queueIds` closure
variable is an explicit argument. -/
def pickNextId (queueIds : List String) (p : Option CampaignProgress)
    (strategy : Strategy) (skipId : Option String) : Option String :=
  match p with
  | none => none
  | some p =>
      match strategy with
      | Strategy.unattempted => pickUnatt p skipId queueIds
      | Strategy.missed => pickMissed p skipId queueIds

end Exec

/-! ## Record Filter (`src/data/campaignsData.ts`) -/

namespace Filters

/-- `Operator` (campaignsData.ts line 5): `=`, `~`, `>`, `>=`, `<`, `<=`. -/
inductive Operator where
  | eq          -- '='
  | contains    -- '~'
  | gt          -- '>'
  | ge          -- '>='
  | lt          -- '<'
  | le          -- '<='
deriving DecidableEq

structure FilterCondition where
  field : String
  op : Operator
  value : String
deriving DecidableEq

/-- A roster record: an open field-to-scalar mapping.  A field bound to
`none` models a JS `null` value; an absent key models `undefined`; both are
coerced to `""` by the filter.  Scalar values are modelled post-`String(...)`
coercion. -/
abbrev Student := List (String × Option String)

def getField (row : Student) (f : String) : Option String :=
  match row.find? (fun kv => kv.1 == f) with
  | some (_, v) => v
  | none => none

/-- JS numbers as produced by `parseFloat`: exact rationals (IEEE-754
rounding abstracted away) extended with the two infinities; `NaN` is
represented by `Option.none` at the `parseFloat` call site. -/
inductive JSNumber where
  | finite (q : ℚ)
  | posInf
  | negInf
deriving DecidableEq

def JSNumber.ltb : JSNumber → JSNumber → Bool
  | JSNumber.finite a, JSNumber.finite b => decide (a < b)
  | JSNumber.finite _, JSNumber.posInf => true
  | JSNumber.negInf, JSNumber.finite _ => true
  | JSNumber.negInf, JSNumber.posInf => true
  | _, _ => false

def JSNumber.leb : JSNumber → JSNumber → Bool
  | JSNumber.finite a, JSNumber.finite b => decide (a ≤ b)
  | JSNumber.finite _, JSNumber.posInf => true
  | JSNumber.negInf, _ => true
  | JSNumber.posInf, JSNumber.posInf => true
  | _, _ => false

def digitsVal (ds : List Char) : Nat :=
  ds.foldl (fun acc d => acc * 10 + (d.toNat - '0'.toNat)) 0

/-- JS `parseFloat`: skip leading whitespace, optional sign, then either
`Infinity` or the longest decimal-literal prefix (integer digits, optional
fraction, optional exponent); trailing garbage is ignored; no parsable
prefix gives `NaN`, modelled as `none`.  The value
`±(int.frac) × 10^exp` is assembled as an exact rational `mkRat num den`. -/
def parseFloat (s : String) : Option JSNumber :=
  let cs0 := s.toList.dropWhile (fun c => c = ' ' ∨ c = '\t' ∨ c = '\n' ∨ c = '\r')
  let signed : Bool × List Char :=
    match cs0 with
    | '+' :: rest => (false, rest)
    | '-' :: rest => (true, rest)
    | _ => (false, cs0)
  let neg := signed.1
  let cs := signed.2
  if (String.mk cs).startsWith "Infinity" then
    some (if neg then JSNumber.negInf else JSNumber.posInf)
  else
    let intDs := cs.takeWhile Char.isDigit
    let cs1 := cs.drop intDs.length
    let fracPart : List Char × List Char :=
      match cs1 with
      | '.' :: rest => (rest.takeWhile Char.isDigit,
          rest.drop (rest.takeWhile Char.isDigit).length)
      | _ => ([], cs1)
    let fracDs := fracPart.1
    let cs2 := fracPart.2
    if intDs.isEmpty ∧ fracDs.isEmpty then none
    else
      let mantAbs : Nat := digitsVal intDs * 10 ^ fracDs.length + digitsVal fracDs
      let mantNum : Int := if neg then -(mantAbs : Int) else (mantAbs : Int)
      let expo : Int :=
        match cs2 with
        | e :: rest =>
            if e = 'e' ∨ e = 'E' then
              let esigned : Bool × List Char :=
                match rest with
                | '+' :: r => (false, r)
                | '-' :: r => (true, r)
                | _ => (false, rest)
              let eDs := esigned.2.takeWhile Char.isDigit
              if eDs.isEmpty then 0
              else if esigned.1 then -(digitsVal eDs : Int)
              else (digitsVal eDs : Int)
            else 0
        | [] => 0
      let num : Int := if 0 ≤ expo then mantNum * ((10 ^ expo.toNat : Nat) : Int) else mantNum
      let den : Nat := if 0 ≤ expo then 10 ^ fracDs.length
        else 10 ^ fracDs.length * 10 ^ (-expo).toNat
      some (JSNumber.finite (mkRat num den))

/-- JS `String.prototype.includes`: `needle` occurs as a contiguous
substring of the second argument (the empty needle always occurs). -/
def includesList (needle : List Char) : List Char → Bool
  | [] => needle.isEmpty
  | c :: rest => needle.isPrefixOf (c :: rest) || includesList needle rest

/-- JS `toLowerCase`, modelled per character on the code-point list
(Unicode special casing abstracted to `Char.toLower`). -/
def lowerChars (s : String) : List Char :=
  s.toList.map Char.toLower

/-- One condition of the predicate body of `applyFilters`
(campaignsData.ts lines 164–181).  JS `toLowerCase`/`includes` become
per-character lowering and substring containment. -/
def condMatches (row : Student) (f : FilterCondition) : Bool :=
  let cell := (getField row f.field).getD ""
  let val := f.value
  match f.op with
  | Operator.eq => lowerChars cell == lowerChars val
  | Operator.contains => includesList (lowerChars val) (lowerChars cell)
  | Operator.gt =>
      match parseFloat cell, parseFloat val with
      | some a, some b => JSNumber.ltb b a
      | _, _ => false
  | Operator.ge =>
      match parseFloat cell, parseFloat val with
      | some a, some b => JSNumber.leb b a
      | _, _ => false
  | Operator.lt =>
      match parseFloat cell, parseFloat val with
      | some a, some b => JSNumber.ltb a b
      | _, _ => false
  | Operator.le =>
      match parseFloat cell, parseFloat val with
      | some a, some b => JSNumber.leb a b
      | _, _ => false

/-- `applyFilters` (campaignsData.ts lines 161–184). -/
def applyFilters (data : List Student) (filters : List FilterCondition) :
    List Student :=
  if filters.isEmpty then data
  else data.filter (fun row => filters.all (fun f => condMatches row f))

/-- `true` exactly for the four numeric comparison operators. -/
def Operator.isNumeric : Operator → Bool
  | Operator.gt | Operator.ge | Operator.lt | Operator.le => true
  | _ => false

end Filters

/-! ## Local summary report (`src/unnamed/part_002`, screens/campaigns.tsx) -/

namespace Report

/-- `lastTimestampForAnswer` (part_002 lines 116–126): latest survey log
entry whose `answer` equals the given (truthy) answer; `null` when the logs
are empty/absent, the answer is falsy (`undefined`/`null`/`""`), or no entry
matches.  The backwards `for` loop is the `find?` over the reversed list. -/
def lastTimestampForAnswer (cp : Option ContactProgress)
    (answer : Option String) : Option Nat :=
  let logs := (cp.bind (fun c => c.surveyLogs)).getD []
  match answer with
  | none => none
  | some a =>
      if logs.isEmpty ∨ a = "" then none
      else (logs.reverse.find? (fun e => e.answer == a)).map (fun e => e.«at»)

/-- The `Timestamp` cell of one summary-report row (part_002 lines 164–167):
`t = max(lastCalledAt ?? 0, lastTimestampForAnswer(...) ?? 0)`. -/
def summaryTimestamp (cp : Option ContactProgress) : Nat :=
  let tCall := (cp.bind (fun c => c.lastCalledAt)).getD 0
  let tResp := (lastTimestampForAnswer cp (cp.bind (fun c => c.surveyAnswer))).getD 0
  max tCall tResp

/-- `iso = t ? new Date(t).toISOString() : ''` (part_002 line 167); `iso`
abstracts the ISO-8601 rendering. -/
def summaryTimestampCell (iso : Nat → String) (cp : Option ContactProgress) :
    String :=
  let t := summaryTimestamp cp
  if t ≠ 0 then iso t else ""

end Report

/-! ## Cloud rows (`src/utils/buildCloudRows.ts`) -/

namespace Cloud

/-- `lastSurveyTimestamp` (buildCloudRows.ts lines 18–22): the `at` of the
last entry of `cp?.surveyLogs ?? []`, else `null`. -/
def lastSurveyTimestamp (cp : Option ContactProgress) : Option Nat :=
  let logs := (cp.bind (fun c => c.surveyLogs)).getD []
  logs.getLast?.map (fun e => e.«at»)

/-- `const ts = surveyAt ?? cp?.lastCalledAt ?? null`
(buildCloudRows.ts line 50). -/
def cloudTimestamp (cp : Option ContactProgress) : Option Nat :=
  match lastSurveyTimestamp cp with
  | some t => some t
  | none => cp.bind (fun c => c.lastCalledAt)

/-- `const iso = ts ? new Date(ts).toISOString() : ''`
(buildCloudRows.ts line 51). -/
def cloudTimestampCell (iso : Nat → String) (cp : Option ContactProgress) :
    String :=
  match cloudTimestamp cp with
  | some t => if t ≠ 0 then iso t else ""
  | none => ""

end Cloud

/-! ## CSV exports (`src/data/campaignProgress.ts`, lines 255–306) -/

namespace Store

/-- `csvField` (lines 257–262): values containing a comma, quote or newline
are wrapped in quotes with internal quotes doubled.  (`null`/`undefined`
inputs never reach this model; inputs are already strings.) -/
def csvField (s : String) : String :=
  if s.toList.any (fun ch => ch = ',' ∨ ch = '"' ∨ ch = '\n') then
    "\"" ++ String.mk (s.toList.flatMap
      (fun ch => if ch = '"' then ['"', '"'] else [ch])) ++ "\""
  else s

/-- The storage-side `lastTimestampForAnswer` (lines 264–271).  Unlike the
report-side one, when no entry matches it falls back to the `at` of the
last survey log entry. -/
def lastTimestampForAnswerCsv (cp : ContactProgress) (answer : String) :
    Option Nat :=
  let logs := cp.surveyLogs.getD []
  if logs.isEmpty then none
  else
    match logs.reverse.find? (fun e => e.answer == answer) with
    | some e => some e.«at»
    | none => logs.getLast?.map (fun e => e.«at»)

/-- `exportSurveyCSV` (lines 273–288); the stored snapshot stands in for the
AsyncStorage read and `iso` for `toISOString`. -/
def exportSurveyCSV (stored : Option CampaignProgress) (iso : Nat → String) :
    String :=
  match stored with
  | none => "contactId,answer,timestamp\n"
  | some p =>
      let rows := ["contactId,answer,timestamp"] ++ p.contacts.filterMap
        (fun kv =>
          match kv.2.surveyAnswer with
          | none => none
          | some a =>
              if a = "" then none
              else
                let ts := lastTimestampForAnswerCsv kv.2 a
                let cell :=
                  match ts with
                  | some t => if t ≠ 0 then iso t else ""
                  | none => ""
                some (String.intercalate ","
                  [csvField kv.1, csvField a, csvField cell]))
      String.intercalate "\n" (rows ++ [""])

def CallOutcome.str : CallOutcome → String
  | CallOutcome.answered => "answered"
  | CallOutcome.no_answer => "no_answer"

/-- `exportCallOutcomesCSV` (lines 290–306). -/
def exportCallOutcomesCSV (stored : Option CampaignProgress)
    (iso : Nat → String) : String :=
  match stored with
  | none => "contactId,outcome,timestamp\n"
  | some p =>
      let rows := ["contactId,outcome,timestamp"] ++ p.contacts.flatMap
        (fun kv =>
          (kv.2.logs.getD []).map (fun e =>
            let cell := if e.«at» ≠ 0 then iso e.«at» else ""
            String.intercalate ","
              [csvField kv.1, csvField (CallOutcome.str e.outcome), csvField cell]))
      String.intercalate "\n" (rows ++ [""])

end Store

example :
    (runOps (Store.initProgress "c" ["a", "b"])
      [ProgOp.record "a" CallOutcome.answered 5]).totals =
      { total := 2, made := 1, answered := 1, missed := 0 } := by decide

/-! ## Association-list lemmas -/

@[simp]
theorem getKey_nil (k : String) : getKey [] k = none := rfl

theorem getKey_cons (k1 : String) (v1 : ContactProgress)
    (rest : List (String × ContactProgress)) (k : String) :
    getKey ((k1, v1) :: rest) k = if k1 = k then some v1 else getKey rest k := by
  by_cases h : k1 = k
  · subst h
    simp [getKey, List.find?]
  · have hb : (k1 == k) = false := beq_eq_false_iff_ne.mpr h
    simp [getKey, List.find?, hb, h]

theorem setKey_nil (k : String) (v : ContactProgress) :
    setKey [] k v = [(k, v)] := rfl

theorem setKey_cons (k1 : String) (v1 : ContactProgress)
    (rest : List (String × ContactProgress)) (k : String) (v : ContactProgress) :
    setKey ((k1, v1) :: rest) k v =
      if k1 = k then (k, v) :: rest else (k1, v1) :: setKey rest k v := rfl

theorem getKey_setKey_self (m : List (String × ContactProgress)) (k : String)
    (v : ContactProgress) : getKey (setKey m k v) k = some v := by
  induction m with
  | nil => simp [setKey_nil, getKey_cons]
  | cons kv rest ih =>
      cases kv with
      | mk k1 v1 =>
          rw [setKey_cons]
          by_cases h : k1 = k
          · rw [if_pos h, getKey_cons, if_pos rfl]
          · rw [if_neg h, getKey_cons, if_neg h]
            exact ih

theorem getKey_setKey_ne (m : List (String × ContactProgress)) (k k' : String)
    (v : ContactProgress) (h : k' ≠ k) :
    getKey (setKey m k v) k' = getKey m k' := by
  induction m with
  | nil => simp [setKey_nil, getKey_cons, Ne.symm h]
  | cons kv rest ih =>
      cases kv with
      | mk k1 v1 =>
          rw [setKey_cons]
          by_cases hk : k1 = k
          · rw [if_pos hk, getKey_cons, getKey_cons, if_neg (Ne.symm h), hk,
              if_neg (Ne.symm h)]
          · rw [if_neg hk, getKey_cons, getKey_cons]
            by_cases hk' : k1 = k'
            · rw [if_pos hk', if_pos hk']
            · rw [if_neg hk', if_neg hk']
              exact ih

theorem setKey_eq_of_getKey (m : List (String × ContactProgress)) (k : String)
    (v : ContactProgress) (h : getKey m k = some v) : setKey m k v = m := by
  induction m with
  | nil => simp at h
  | cons kv rest ih =>
      cases kv with
      | mk k1 v1 =>
          rw [getKey_cons] at h
          rw [setKey_cons]
          by_cases hk : k1 = k
          · rw [if_pos hk] at h
            cases h
            rw [if_pos hk, hk]
          · rw [if_neg hk] at h
            rw [if_neg hk, ih h]

theorem length_setKey_of_getKey_some (m : List (String × ContactProgress))
    (k : String) (v w : ContactProgress) (h : getKey m k = some w) :
    (setKey m k v).length = m.length := by
  induction m with
  | nil => simp at h
  | cons kv rest ih =>
      cases kv with
      | mk k1 v1 =>
          rw [getKey_cons] at h
          rw [setKey_cons]
          by_cases hk : k1 = k
          · rw [if_pos hk]
            simp
          · rw [if_neg hk] at h
            rw [if_neg hk, List.length_cons, List.length_cons, ih h]

theorem length_setKey_of_getKey_none (m : List (String × ContactProgress))
    (k : String) (v : ContactProgress) (h : getKey m k = none) :
    (setKey m k v).length = m.length + 1 := by
  induction m with
  | nil => simp [setKey_nil]
  | cons kv rest ih =>
      cases kv with
      | mk k1 v1 =>
          rw [getKey_cons] at h
          rw [setKey_cons]
          by_cases hk : k1 = k
          · rw [if_pos hk] at h
            cases h
          · rw [if_neg hk] at h
            rw [if_neg hk, List.length_cons, List.length_cons, ih h]

theorem mem_setKey (m : List (String × ContactProgress)) (k : String)
    (v : ContactProgress) (kv : String × ContactProgress)
    (h : kv ∈ setKey m k v) : kv = (k, v) ∨ kv ∈ m := by
  induction m with
  | nil =>
      rw [setKey_nil] at h
      exact Or.inl (by simpa using h)
  | cons kv' rest ih =>
      cases kv' with
      | mk k1 v1 =>
          rw [setKey_cons] at h
          by_cases hk : k1 = k
          · rw [if_pos hk] at h
            rcases List.mem_cons.mp h with h' | h'
            · exact Or.inl h'
            · exact Or.inr (List.mem_cons_of_mem _ h')
          · rw [if_neg hk] at h
            rcases List.mem_cons.mp h with h' | h'
            · exact Or.inr (by simp [h'])
            · rcases ih h' with h'' | h''
              · exact Or.inl h''
              · exact Or.inr (List.mem_cons_of_mem _ h'')

/-! ## Totals recount lemmas -/

namespace Store

def outcomeSet (kv : String × ContactProgress) : Bool :=
  kv.2.outcome.isSome

def outcomeAnswered (kv : String × ContactProgress) : Bool :=
  kv.2.outcome = some CallOutcome.answered

def outcomeMissed (kv : String × ContactProgress) : Bool :=
  kv.2.outcome = some CallOutcome.no_answer

theorem recount_aux (cs : List (String × ContactProgress)) (acc : Nat × Nat × Nat) :
    cs.foldl
      (fun acc kv =>
        match kv.2.outcome with
        | none => acc
        | some CallOutcome.answered => (acc.1 + 1, acc.2.1 + 1, acc.2.2)
        | some CallOutcome.no_answer => (acc.1 + 1, acc.2.1, acc.2.2 + 1))
      acc =
    (acc.1 + cs.countP outcomeSet,
     acc.2.1 + cs.countP outcomeAnswered,
     acc.2.2 + cs.countP outcomeMissed) := by
  induction cs generalizing acc with
  | nil => simp
  | cons kv rest ih =>
      rcases hoc : kv.2.outcome with _ | oc
      · simp only [List.foldl_cons, hoc, List.countP_cons, outcomeSet, outcomeAnswered,
          outcomeMissed, hoc]
        rw [ih]
        simp [outcomeSet, outcomeAnswered, outcomeMissed, hoc]
      · cases oc
        · simp only [List.foldl_cons, hoc]
          rw [ih]
          simp only [List.countP_cons, outcomeSet, outcomeAnswered, outcomeMissed, hoc]
          simp
          omega
        · simp only [List.foldl_cons, hoc]
          rw [ih]
          simp only [List.countP_cons, outcomeSet, outcomeAnswered, outcomeMissed, hoc]
          simp
          omega

theorem recount_eq (cs : List (String × ContactProgress)) :
    recount cs =
      (cs.countP outcomeSet, cs.countP outcomeAnswered, cs.countP outcomeMissed) := by
  simpa [recount] using recount_aux cs (0, 0, 0)

theorem countP_outcome_split (cs : List (String × ContactProgress)) :
    cs.countP outcomeAnswered + cs.countP outcomeMissed = cs.countP outcomeSet := by
  induction cs with
  | nil => simp
  | cons kv rest ih =>
      rcases hoc : kv.2.outcome with _ | oc
      · simp only [List.countP_cons, outcomeSet, outcomeAnswered, outcomeMissed, hoc]
        simpa using ih
      · cases oc
        · simp only [List.countP_cons, outcomeSet, outcomeAnswered, outcomeMissed, hoc]
          simp
          omega
        · simp only [List.countP_cons, outcomeSet, outcomeAnswered, outcomeMissed, hoc]
          simp
          omega

end Store

example : Filters.parseFloat "3.5x" = some (Filters.JSNumber.finite (mkRat 7 2)) := by
  decide

example : Filters.parseFloat "abc" = none := by decide

example : Filters.parseFloat "  -2e3" = some (Filters.JSNumber.finite (mkRat (-2000) 1)) := by
  decide

example :
    Filters.condMatches [("gpa", some "3.5")]
      { field := "gpa", op := Filters.Operator.gt, value := "2" } = true := by
  decide

example :
    Filters.condMatches [("gpa", some "abc")]
      { field := "gpa", op := Filters.Operator.gt, value := "2" } = false := by
  decide

example :
    Filters.condMatches [("name", some "Smith, Bob")]
      { field := "name", op := Filters.Operator.contains, value := "SMITH" } = true := by
  decide

/-! ## Totals invariant (claim C1) -/

/-- The totals counting invariant: `made` counts contacts with an outcome
set, `answered`/`missed` count the two outcome values, and
`answered + missed = made`. -/
def countInvariant (p : CampaignProgress) : Prop :=
  p.totals.made = p.contacts.countP Store.outcomeSet
  ∧ p.totals.answered = p.contacts.countP Store.outcomeAnswered
  ∧ p.totals.missed = p.contacts.countP Store.outcomeMissed
  ∧ p.totals.answered + p.totals.missed = p.totals.made

instance (p : CampaignProgress) : Decidable (countInvariant p) := by
  unfold countInvariant
  infer_instance

theorem countInvariant_recordOutcome (p : CampaignProgress) (cid : String)
    (oc : CallOutcome) (now : Nat) :
    countInvariant (Store.recordOutcome p cid oc now) := by
  unfold countInvariant Store.recordOutcome
  refine ⟨?_, ?_, ?_, ?_⟩
  · simp only [Store.recount_eq]
  · simp only [Store.recount_eq]
  · simp only [Store.recount_eq]
  · simp only [Store.recount_eq]
    exact Store.countP_outcome_split _

theorem countInvariant_clearMissedOutcomes (p : CampaignProgress) :
    countInvariant (Store.clearMissedOutcomes p) := by
  unfold countInvariant Store.clearMissedOutcomes
  refine ⟨?_, ?_, ?_, ?_⟩
  · simp only [Store.recount_eq]
  · simp only [Store.recount_eq]
  · simp only [Store.recount_eq]
  · simp only [Store.recount_eq]
    exact Store.countP_outcome_split _

/-- C1: After any non-empty sequence of `recordOutcome` calls (interleaved
with `clearMissedOutcomes`) applied to a progress snapshot, the stored
totals satisfy: `made` equals the number of contacts whose outcome is set,
`answered` equals the number with outcome `answered`, `missed` equals the
number with outcome `no_answer`, and `answered + missed = made`. -/
theorem totals_invariant_after_record_sequence (p : CampaignProgress)
    (ops : List ProgOp) (hne : ops ≠ [])
    (hkind : ops.all ProgOp.recomputes = true) :
    countInvariant (runOps p ops) := by
  induction ops generalizing p with
  | nil => exact absurd rfl hne
  | cons op rest ih =>
      have hop : op.recomputes = true := by
        have := List.all_eq_true.mp hkind op (List.mem_cons_self _ _)
        exact this
      have hrest : rest.all ProgOp.recomputes = true := by
        refine List.all_eq_true.mpr ?_
        intro x hx
        exact List.all_eq_true.mp hkind x (List.mem_cons_of_mem _ hx)
      rcases hr : rest with _ | ⟨op2, rest2⟩
      · subst hr
        show countInvariant (applyOp p op)
        cases op with
        | record cid oc now => exact countInvariant_recordOutcome p cid oc now
        | survey cid a now => simp [ProgOp.recomputes] at hop
        | clearMissed => exact countInvariant_clearMissedOutcomes p
        | clearSurvey cid => simp [ProgOp.recomputes] at hop
        | load ids => simp [ProgOp.recomputes] at hop
      · subst hr
        show countInvariant (runOps (applyOp p op) (op2 :: rest2))
        exact ih (applyOp p op) (by simp) hrest

/-- Witness for C1: one `recordOutcome` then one `clearMissedOutcomes` on a
fresh three-contact snapshot. -/
theorem totals_invariant_after_record_sequence_witness :
    countInvariant (runOps (Store.initProgress "camp" ["a", "b", "c"])
      [ProgOp.record "a" CallOutcome.no_answer 5, ProgOp.clearMissed]) :=
  totals_invariant_after_record_sequence _ _ (by decide) (by decide)

/-! ## Size invariant `totals.total = |contacts|` (claim C2) -/

def sizeInvariant (p : CampaignProgress) : Prop :=
  p.totals.total = p.contacts.length

instance (p : CampaignProgress) : Decidable (sizeInvariant p) := by
  unfold sizeInvariant
  infer_instance

theorem length_foldl_fresh (ids : List String)
    (m : List (String × ContactProgress))
    (hfresh : ∀ id ∈ ids, getKey m id = none) (hnod : ids.Nodup) :
    (ids.foldl (fun acc i => setKey acc i (Store.freshContact i)) m).length =
      m.length + ids.length := by
  induction ids generalizing m with
  | nil => simp
  | cons a rest ih =>
      have ha : getKey m a = none := hfresh a (List.mem_cons_self _ _)
      have hnotmem : a ∉ rest := (List.nodup_cons.mp hnod).1
      have h2 : ∀ id ∈ rest, getKey (setKey m a (Store.freshContact a)) id = none := by
        intro id hid
        have hne : id ≠ a := fun he => hnotmem (he ▸ hid)
        rw [getKey_setKey_ne _ _ _ _ hne]
        exact hfresh id (List.mem_cons_of_mem _ hid)
      simp only [List.foldl_cons]
      rw [ih _ h2 (List.nodup_cons.mp hnod).2,
        length_setKey_of_getKey_none _ _ _ ha, List.length_cons]
      omega

theorem sizeInvariant_initProgress (cid : String) (ids : List String)
    (hnod : ids.Nodup) : sizeInvariant (Store.initProgress cid ids) := by
  unfold sizeInvariant Store.initProgress
  simp only
  rw [length_foldl_fresh ids [] (fun id _ => rfl) hnod]
  simp

theorem sizeInvariant_backfillOne (p : CampaignProgress) (id : String)
    (h : sizeInvariant p) : sizeInvariant (Store.backfillOne p id) := by
  unfold sizeInvariant Store.backfillOne
  rcases hg : getKey p.contacts id with _ | c
  · simp only
    rw [length_setKey_of_getKey_none _ _ _ hg]
    unfold sizeInvariant at h
    omega
  · simp only
    rw [length_setKey_of_getKey_some _ _ _ _ hg]
    exact h

theorem sizeInvariant_backfill (p : CampaignProgress) (ids : List String)
    (h : sizeInvariant p) : sizeInvariant (ids.foldl Store.backfillOne p) := by
  induction ids generalizing p with
  | nil => exact h
  | cons a rest ih =>
      simp only [List.foldl_cons]
      exact ih _ (sizeInvariant_backfillOne p a h)

/-- C2 counterexample: `recordOutcome` for a contact id absent from the
snapshot adds the contact to the map but leaves `totals.total` unchanged,
so `totals.total` (1) no longer equals the contact-map size (2). -/
theorem recordOutcome_absent_breaks_total :
    ¬ sizeInvariant
        (Store.recordOutcome (Store.initProgress "camp" ["a"]) "b"
          CallOutcome.answered 5) := by
  decide

/-- C2 (amended): `totals.total = |contacts|` is established by `loadOrInit`
on a fresh snapshot for a duplicate-free queue, and preserved by the
backfill branch of `loadOrInit`, by `clearMissedOutcomes`, by
`clearSurveyResponse`, and by `recordOutcome`/`recordSurveyResponse`
whenever the target contact id is already present in the snapshot. -/
theorem totals_total_tracks_contacts :
    (∀ cid ids, ids.Nodup →
      sizeInvariant (Store.loadOrInitProgress none cid ids))
    ∧ (∀ p cid ids, sizeInvariant p →
      sizeInvariant (Store.loadOrInitProgress (some p) cid ids))
    ∧ (∀ p cid oc now, sizeInvariant p → (getKey p.contacts cid).isSome = true →
      sizeInvariant (Store.recordOutcome p cid oc now))
    ∧ (∀ p cid a now, sizeInvariant p → (getKey p.contacts cid).isSome = true →
      sizeInvariant (Store.recordSurveyResponse p cid a now))
    ∧ (∀ p, sizeInvariant p → sizeInvariant (Store.clearMissedOutcomes p))
    ∧ (∀ p cid, sizeInvariant p → sizeInvariant (Store.clearSurveyResponse p cid)) := by
  refine ⟨?_, ?_, ?_, ?_, ?_, ?_⟩
  · intro cid ids hnod
    exact sizeInvariant_initProgress cid ids hnod
  · intro p cid ids h
    exact sizeInvariant_backfill p ids h
  · intro p cid oc now h hmem
    rcases hg : getKey p.contacts cid with _ | c
    · rw [hg] at hmem
      simp at hmem
    · unfold sizeInvariant Store.recordOutcome
      rw [hg]
      simp only [Option.getD_some]
      rw [length_setKey_of_getKey_some _ _ _ _ hg]
      exact h
  · intro p cid a now h hmem
    rcases hg : getKey p.contacts cid with _ | c
    · rw [hg] at hmem
      simp at hmem
    · unfold sizeInvariant Store.recordSurveyResponse
      rw [hg]
      simp only [Option.getD_some]
      rw [length_setKey_of_getKey_some _ _ _ _ hg]
      exact h
  · intro p h
    unfold sizeInvariant Store.clearMissedOutcomes
    simp only [List.length_map]
    exact h
  · intro p cid h
    unfold sizeInvariant Store.clearSurveyResponse
    rcases hg : getKey p.contacts cid with _ | c
    · exact h
    · simp only
      rw [length_setKey_of_getKey_some _ _ _ _ hg]
      exact h

/-- Witness for C2 (amended): `recordOutcome` on a present contact keeps
`totals.total` equal to the contact-map size. -/
theorem totals_total_tracks_contacts_witness :
    sizeInvariant
      (Store.recordOutcome (Store.initProgress "camp" ["a"]) "a"
        CallOutcome.answered 5) :=
  totals_total_tracks_contacts.2.2.1 _ "a" CallOutcome.answered 5
    (by decide) (by decide)


/-! ## Latest-value projection invariant (claim C3) -/

/-- The per-contact "latest value" relation that actually holds in the code:
`lastCalledAt` always mirrors the `at` of the last call log entry, and
`outcome` / `surveyAnswer`, *whenever set*, equal the corresponding field of
the last entry of their audit trail.  (`clearMissedOutcomes` and
`clearSurveyResponse` unset the projection while the trail keeps its last
entry, so equality cannot be demanded unconditionally.) -/
def contactOk (c : ContactProgress) : Prop :=
  c.lastCalledAt = ((c.logs.getD []).getLast?).map (fun e => e.«at»)
  ∧ (∀ oc, c.outcome = some oc →
      ((c.logs.getD []).getLast?).map (fun e => e.outcome) = some oc)
  ∧ (∀ a, c.surveyAnswer = some a →
      ((c.surveyLogs.getD []).getLast?).map (fun e => e.answer) = some a)

def latestInvariant (p : CampaignProgress) : Prop :=
  ∀ kv ∈ p.contacts, contactOk kv.2

theorem contactOk_fresh (id : String) : contactOk (Store.freshContact id) := by
  unfold contactOk Store.freshContact
  refine ⟨rfl, ?_, ?_⟩
  · intro oc h
    simp at h
  · intro a h
    simp at h

theorem getLast?_concat_entry {α : Type} (l : List α) (e : α) :
    (l ++ [e]).getLast? = some e := by
  rw [List.getLast?_append_cons]
  rfl

theorem contactOk_of_getKey (p : CampaignProgress) (cid : String)
    (c : ContactProgress) (h : latestInvariant p)
    (hg : getKey p.contacts cid = some c) : contactOk c := by
  unfold getKey at hg
  rcases hf : p.contacts.find? (fun kv => kv.1 == cid) with _ | kv
  · rw [hf] at hg
    cases hg
  · rw [hf] at hg
    cases kv with
    | mk k1 v1 =>
        cases hg
        exact h _ (List.mem_of_find?_eq_some hf)

theorem contactOk_getD (p : CampaignProgress) (cid : String)
    (h : latestInvariant p) :
    contactOk ((getKey p.contacts cid).getD (Store.freshContact cid)) := by
  rcases hg : getKey p.contacts cid with _ | c
  · simpa using contactOk_fresh cid
  · simpa using contactOk_of_getKey p cid c h hg

theorem latestInvariant_recordOutcome (p : CampaignProgress) (cid : String)
    (oc : CallOutcome) (now : Nat) (h : latestInvariant p) :
    latestInvariant (Store.recordOutcome p cid oc now) := by
  intro kv hkv
  simp only [Store.recordOutcome] at hkv
  rcases mem_setKey _ _ _ _ hkv with heq | hmem
  · have hok := contactOk_getD p cid h
    set c0 := (getKey p.contacts cid).getD (Store.freshContact cid) with hc0
    subst heq
    unfold contactOk at hok ⊢
    refine ⟨?_, ?_, ?_⟩
    · simp [getLast?_concat_entry]
    · intro oc' hoc'
      simp only at hoc'
      cases hoc'
      simp [getLast?_concat_entry]
    · intro a ha
      simp only at ha
      have := hok.2.2 a ha
      simpa using this
  · exact h kv hmem

theorem latestInvariant_recordSurveyResponse (p : CampaignProgress)
    (cid : String) (a : String) (now : Nat) (h : latestInvariant p) :
    latestInvariant (Store.recordSurveyResponse p cid a now) := by
  intro kv hkv
  simp only [Store.recordSurveyResponse] at hkv
  rcases mem_setKey _ _ _ _ hkv with heq | hmem
  · have hok := contactOk_getD p cid h
    subst heq
    unfold contactOk at hok ⊢
    refine ⟨?_, ?_, ?_⟩
    · simpa using hok.1
    · intro oc hoc
      simp only at hoc
      have := hok.2.1 oc hoc
      simpa using this
    · intro a' ha'
      simp only at ha'
      cases ha'
      simp [getLast?_concat_entry]
  · exact h kv hmem

theorem latestInvariant_clearMissedOutcomes (p : CampaignProgress)
    (h : latestInvariant p) :
    latestInvariant (Store.clearMissedOutcomes p) := by
  intro kv hkv
  simp only [Store.clearMissedOutcomes] at hkv
  rcases List.mem_map.mp hkv with ⟨kv0, hkv0, heq⟩
  have hok := h kv0 hkv0
  by_cases hoc : kv0.2.outcome = some CallOutcome.no_answer
  · rw [if_pos hoc] at heq
    subst heq
    unfold contactOk at hok ⊢
    refine ⟨?_, ?_, ?_⟩
    · simpa using hok.1
    · intro oc hc
      simp at hc
    · intro a ha
      simp only at ha
      have := hok.2.2 a ha
      simpa using this
  · rw [if_neg hoc] at heq
    subst heq
    exact hok

theorem latestInvariant_clearSurveyResponse (p : CampaignProgress)
    (cid : String) (h : latestInvariant p) :
    latestInvariant (Store.clearSurveyResponse p cid) := by
  intro kv hkv
  unfold Store.clearSurveyResponse at hkv
  rcases hg : getKey p.contacts cid with _ | c
  · rw [hg] at hkv
    exact h kv hkv
  · rw [hg] at hkv
    simp only at hkv
    rcases mem_setKey _ _ _ _ hkv with heq | hmem
    · have hok := contactOk_of_getKey p cid c h hg
      subst heq
      unfold contactOk at hok ⊢
      refine ⟨?_, ?_, ?_⟩
      · simpa using hok.1
      · intro oc hoc
        simp only at hoc
        have := hok.2.1 oc hoc
        simpa using this
      · intro a ha
        simp at ha
    · exact h kv hmem

theorem latestInvariant_backfillOne (p : CampaignProgress) (id : String)
    (h : latestInvariant p) : latestInvariant (Store.backfillOne p id) := by
  intro kv hkv
  unfold Store.backfillOne at hkv
  rcases hg : getKey p.contacts id with _ | c
  · rw [hg] at hkv
    simp only at hkv
    rcases mem_setKey _ _ _ _ hkv with heq | hmem
    · subst heq
      exact contactOk_fresh id
    · exact h kv hmem
  · rw [hg] at hkv
    simp only at hkv
    rcases mem_setKey _ _ _ _ hkv with heq | hmem
    · have hok := contactOk_of_getKey p id c h hg
      subst heq
      unfold contactOk at hok ⊢
      refine ⟨?_, ?_, ?_⟩
      · simpa [Store.normalizeLogs] using hok.1
      · intro oc hoc
        simp only [Store.normalizeLogs] at hoc
        have := hok.2.1 oc hoc
        simpa [Store.normalizeLogs] using this
      · intro a ha
        simp only [Store.normalizeLogs] at ha
        have := hok.2.2 a ha
        simpa [Store.normalizeLogs] using this
    · exact h kv hmem

theorem latestInvariant_backfill (p : CampaignProgress) (ids : List String)
    (h : latestInvariant p) : latestInvariant (ids.foldl Store.backfillOne p) := by
  induction ids generalizing p with
  | nil => exact h
  | cons a rest ih =>
      simp only [List.foldl_cons]
      exact ih _ (latestInvariant_backfillOne p a h)

theorem latestInvariant_initProgress (cid : String) (ids : List String) :
    latestInvariant (Store.initProgress cid ids) := by
  unfold Store.initProgress latestInvariant
  simp only
  suffices hgen : ∀ (ids : List String) (m : List (String × ContactProgress)),
      (∀ kv ∈ m, contactOk kv.2) →
      ∀ kv ∈ ids.foldl (fun acc i => setKey acc i (Store.freshContact i)) m,
        contactOk kv.2 by
    intro kv hkv
    exact hgen ids [] (by intro kv h; simp at h) kv hkv
  intro ids
  induction ids with
  | nil =>
      intro m hm kv hkv
      exact hm kv hkv
  | cons a rest ih =>
      intro m hm kv hkv
      simp only [List.foldl_cons] at hkv
      refine ih _ ?_ kv hkv
      intro kv' hkv'
      rcases mem_setKey _ _ _ _ hkv' with heq | hmem
      · subst heq
        exact contactOk_fresh a
      · exact hm kv' hmem

theorem latestInvariant_applyOp (p : CampaignProgress) (op : ProgOp)
    (h : latestInvariant p) : latestInvariant (applyOp p op) := by
  cases op with
  | record cid oc now => exact latestInvariant_recordOutcome p cid oc now h
  | survey cid a now => exact latestInvariant_recordSurveyResponse p cid a now h
  | clearMissed => exact latestInvariant_clearMissedOutcomes p h
  | clearSurvey cid => exact latestInvariant_clearSurveyResponse p cid h
  | load ids => exact latestInvariant_backfill p ids h

/-- C3 counterexample: record a survey answer, then `clearSurveyResponse`.
The surviving contact has `surveyAnswer` unset while the last (and only)
survey log entry still carries answer `"Yes"`, so the claimed equality
between `surveyAnswer` and the last element of `surveyLogs` fails. -/
theorem clearSurvey_breaks_latest_projection :
    (getKey (runOps (Store.initProgress "camp" ["a"])
        [ProgOp.survey "a" "Yes" 5, ProgOp.clearSurvey "a"]).contacts "a").map
      (fun c => c.surveyAnswer) = some none
    ∧ (getKey (runOps (Store.initProgress "camp" ["a"])
        [ProgOp.survey "a" "Yes" 5, ProgOp.clearSurvey "a"]).contacts "a").map
      (fun c => ((c.surveyLogs.getD []).getLast?).map (fun e => e.answer)) =
      some (some (some "Yes")) := by
  decide

theorem latestInvariant_runOps (p : CampaignProgress) (ops : List ProgOp)
    (h : latestInvariant p) : latestInvariant (runOps p ops) := by
  induction ops generalizing p with
  | nil => exact h
  | cons op rest ih =>
      show latestInvariant (runOps (applyOp p op) rest)
      exact ih _ (latestInvariant_applyOp p op h)

/-- C3 (amended): starting from a fresh snapshot, after any sequence of
Progress Store operations every contact satisfies: `lastCalledAt` equals
the `at` of the last call log entry (unset exactly when the call log is
empty); `outcome`, whenever set, equals the outcome of the last call log
entry; and `surveyAnswer`, whenever set, equals the answer of the last
survey log entry.  After `clearMissedOutcomes` / `clearSurveyResponse` the
`outcome` / `surveyAnswer` projection may be unset while the trail retains
its last entry. -/
theorem latest_projection_invariant (cid : String) (ids : List String)
    (ops : List ProgOp) :
    latestInvariant (runOps (Store.initProgress cid ids) ops) :=
  latestInvariant_runOps _ ops (latestInvariant_initProgress cid ids)

/-! ## Queue Navigator correctness (claim C4) -/

namespace Exec

/-- Spec-side predicate for the `unattempted` strategy: contact absent or
`attempts = 0`. -/
def unattemptedPred (p : CampaignProgress) (id : String) : Bool :=
  match getKey p.contacts id with
  | none => true
  | some c => decide (c.attempts = 0)

/-- Spec-side predicate for the `missed` strategy: contact present with
outcome `no_answer`. -/
def missedPred (p : CampaignProgress) (id : String) : Bool :=
  decide ((getKey p.contacts id).bind (fun c => c.outcome) =
    some CallOutcome.no_answer)

/-- Spec-side skip filter: every queue id different from `skipId`. -/
def notSkip (skipId : Option String) (id : String) : Bool :=
  !(decide (skipId = some id))

theorem pickUnatt_eq_find (p : CampaignProgress) (skip : Option String)
    (q : List String) :
    pickUnatt p skip q = (q.filter (notSkip skip)).find? (unattemptedPred p) := by
  induction q with
  | nil => rfl
  | cons a rest ih =>
      by_cases hs : skip = some a
      · rw [show pickUnatt p skip (a :: rest) = pickUnatt p skip rest from by
          simp [pickUnatt, hs]]
        rw [List.filter_cons, if_neg (by simp [notSkip, hs])]
        exact ih
      · rw [List.filter_cons, if_pos (by simp [notSkip, hs])]
        rcases hg : getKey p.contacts a with _ | c
        · rw [show pickUnatt p skip (a :: rest) = some a from by
            simp [pickUnatt, hs, hg]]
          rw [List.find?_cons_of_pos _ (by simp [unattemptedPred, hg])]
        · by_cases hatt : c.attempts = 0
          · rw [show pickUnatt p skip (a :: rest) = some a from by
              simp [pickUnatt, hs, hg, hatt]]
            rw [List.find?_cons_of_pos _ (by simp [unattemptedPred, hg, hatt])]
          · rw [show pickUnatt p skip (a :: rest) = pickUnatt p skip rest from by
              simp [pickUnatt, hs, hg, hatt]]
            rw [List.find?_cons_of_neg _ (by simp [unattemptedPred, hg, hatt])]
            exact ih

theorem pickMissed_eq_find (p : CampaignProgress) (skip : Option String)
    (q : List String) :
    pickMissed p skip q = (q.filter (notSkip skip)).find? (missedPred p) := by
  induction q with
  | nil => rfl
  | cons a rest ih =>
      by_cases hs : skip = some a
      · rw [show pickMissed p skip (a :: rest) = pickMissed p skip rest from by
          simp [pickMissed, hs]]
        rw [List.filter_cons, if_neg (by simp [notSkip, hs])]
        exact ih
      · rw [List.filter_cons, if_pos (by simp [notSkip, hs])]
        by_cases hmiss : (getKey p.contacts a).bind (fun c => c.outcome) =
            some CallOutcome.no_answer
        · rw [show pickMissed p skip (a :: rest) = some a from by
            simp [pickMissed, hs, hmiss]]
          rw [List.find?_cons_of_pos _ (by simp [missedPred, hmiss])]
        · rw [show pickMissed p skip (a :: rest) = pickMissed p skip rest from by
            simp [pickMissed, hs, hmiss]]
          rw [List.find?_cons_of_neg _ (by simp [missedPred, hmiss])]
          exact ih

end Exec

/-- C4: `pickNextId` with strategy `unattempted` returns the first id in
queue order, `skipId` excluded, whose contact is absent or has
`attempts = 0`; with strategy `missed` the first id, `skipId` excluded,
whose contact has outcome `no_answer`; `none` when no such id exists (the
`find?` on the filtered queue captures "first in queue order, else none").
In particular, on queue `["a","b","c"]`: after recording `answered` for
`"a"`, it returns `"b"`; after also recording `no_answer` for `"b"` it
returns `"c"`; after also recording `answered` for `"c"` it returns `none`
with totals `{total:3, made:3, answered:2, missed:1}`. -/
theorem pickNextId_correct :
    (∀ q p skip, Exec.pickNextId q (some p) Exec.Strategy.unattempted skip =
      (q.filter (Exec.notSkip skip)).find? (Exec.unattemptedPred p))
    ∧ (∀ q p skip, Exec.pickNextId q (some p) Exec.Strategy.missed skip =
      (q.filter (Exec.notSkip skip)).find? (Exec.missedPred p))
    ∧ (∀ q s skip, Exec.pickNextId q none s skip = none)
    ∧ (Exec.pickNextId ["a", "b", "c"]
        (some (runOps (Store.initProgress "camp" ["a", "b", "c"])
          [ProgOp.record "a" CallOutcome.answered 1]))
        Exec.Strategy.unattempted none = some "b"
      ∧ Exec.pickNextId ["a", "b", "c"]
        (some (runOps (Store.initProgress "camp" ["a", "b", "c"])
          [ProgOp.record "a" CallOutcome.answered 1,
           ProgOp.record "b" CallOutcome.no_answer 2]))
        Exec.Strategy.unattempted none = some "c"
      ∧ Exec.pickNextId ["a", "b", "c"]
        (some (runOps (Store.initProgress "camp" ["a", "b", "c"])
          [ProgOp.record "a" CallOutcome.answered 1,
           ProgOp.record "b" CallOutcome.no_answer 2,
           ProgOp.record "c" CallOutcome.answered 3]))
        Exec.Strategy.unattempted none = none
      ∧ (runOps (Store.initProgress "camp" ["a", "b", "c"])
          [ProgOp.record "a" CallOutcome.answered 1,
           ProgOp.record "b" CallOutcome.no_answer 2,
           ProgOp.record "c" CallOutcome.answered 3]).totals =
        { total := 3, made := 3, answered := 2, missed := 1 }) := by
  refine ⟨?_, ?_, ?_, ?_⟩
  · intro q p skip
    exact Exec.pickUnatt_eq_find p skip q
  · intro q p skip
    exact Exec.pickMissed_eq_find p skip q
  · intro q s skip
    cases s <;> rfl
  · refine ⟨by decide, by decide, by decide, by decide⟩

/-! ## Record Filter properties (claims C5, C6) -/

/-- C5: filtering with the empty FilterSet returns the record list
unchanged; for every FilterSet the output is an order-preserving
subsequence of the input (`Sublist`), and it equals the subsequence of
exactly those records for which every condition matches. -/
theorem applyFilters_identity_and_subsequence :
    (∀ data, Filters.applyFilters data [] = data)
    ∧ (∀ data fs, (Filters.applyFilters data fs).Sublist data)
    ∧ (∀ data fs, Filters.applyFilters data fs =
        data.filter (fun r => fs.all (fun f => Filters.condMatches r f))) := by
  refine ⟨?_, ?_, ?_⟩
  · intro data
    simp [Filters.applyFilters]
  · intro data fs
    unfold Filters.applyFilters
    by_cases h : fs.isEmpty
    · rw [if_pos h]
    · rw [if_neg h]
      exact List.filter_sublist data
  · intro data fs
    unfold Filters.applyFilters
    by_cases h : fs.isEmpty
    · rw [if_pos h]
      rcases fs with _ | ⟨f, fs'⟩
      · simp
      · simp at h
    · rw [if_neg h]

/-- C6: for a condition with a numeric comparison operator, if float-parsing
of either the record's (coerced) field value or the condition's value fails,
the condition evaluates to `false` and the record is excluded from the
output of any FilterSet containing the condition.  (No error: `condMatches`
and `applyFilters` are total functions.) -/
theorem numeric_parse_failure_excludes (row : Filters.Student)
    (f : Filters.FilterCondition) (hop : f.op.isNumeric = true)
    (hfail : Filters.parseFloat ((Filters.getField row f.field).getD "") = none
      ∨ Filters.parseFloat f.value = none) :
    Filters.condMatches row f = false
    ∧ ∀ (data : List Filters.Student) (fs : List Filters.FilterCondition),
        f ∈ fs → row ∉ Filters.applyFilters data fs := by
  have hcond : Filters.condMatches row f = false := by
    unfold Filters.condMatches
    cases hf : f.op with
    | eq => rw [hf] at hop; simp [Filters.Operator.isNumeric] at hop
    | contains => rw [hf] at hop; simp [Filters.Operator.isNumeric] at hop
    | gt =>
        simp only
        rcases hfail with h1 | h1 <;>
          rcases h2 : Filters.parseFloat ((Filters.getField row f.field).getD "") with _ | a <;>
          rcases h3 : Filters.parseFloat f.value with _ | b <;>
          simp_all
    | ge =>
        simp only
        rcases hfail with h1 | h1 <;>
          rcases h2 : Filters.parseFloat ((Filters.getField row f.field).getD "") with _ | a <;>
          rcases h3 : Filters.parseFloat f.value with _ | b <;>
          simp_all
    | lt =>
        simp only
        rcases hfail with h1 | h1 <;>
          rcases h2 : Filters.parseFloat ((Filters.getField row f.field).getD "") with _ | a <;>
          rcases h3 : Filters.parseFloat f.value with _ | b <;>
          simp_all
    | le =>
        simp only
        rcases hfail with h1 | h1 <;>
          rcases h2 : Filters.parseFloat ((Filters.getField row f.field).getD "") with _ | a <;>
          rcases h3 : Filters.parseFloat f.value with _ | b <;>
          simp_all
  refine ⟨hcond, ?_⟩
  intro data fs hf hmem
  have hne : fs.isEmpty = false := by
    cases fs with
    | nil => cases hf
    | cons g gs => rfl
  unfold Filters.applyFilters at hmem
  rw [if_neg (by simp [hne])] at hmem
  have hall := (List.mem_filter.mp hmem).2
  have := List.all_eq_true.mp hall f hf
  rw [hcond] at this
  cases this

/-- Witness for C6: a non-numeric cell `"abc"` under `>` is rejected and the
record filtered out. -/
theorem numeric_parse_failure_excludes_witness :
    Filters.condMatches [("gpa", some "abc")]
      { field := "gpa", op := Filters.Operator.gt, value := "3" } = false
    ∧ [("gpa", some "abc")] ∉ Filters.applyFilters [[("gpa", some "abc")]]
        [{ field := "gpa", op := Filters.Operator.gt, value := "3" }] := by
  have h := numeric_parse_failure_excludes [("gpa", some "abc")]
    { field := "gpa", op := Filters.Operator.gt, value := "3" }
    (by decide) (Or.inl (by decide))
  exact ⟨h.1, h.2 _ _ (by decide)⟩

/-! ## `loadOrInit` idempotence (claim C7) -/

theorem backfillOne_none (p : CampaignProgress) (id : String)
    (hg : getKey p.contacts id = none) :
    Store.backfillOne p id =
      { p with contacts := setKey p.contacts id (Store.freshContact id)
               totals := { p.totals with total := p.totals.total + 1 } } := by
  unfold Store.backfillOne
  rw [hg]

theorem backfillOne_some (p : CampaignProgress) (id : String)
    (c : ContactProgress) (hg : getKey p.contacts id = some c) :
    Store.backfillOne p id =
      { p with contacts := setKey p.contacts id (Store.normalizeLogs c) } := by
  unfold Store.backfillOne
  rw [hg]

/-- After a `loadOrInit`, a queue id is present with materialised (non-null)
`logs` and `surveyLogs` arrays; a second backfill of such an id is a no-op. -/
def contactLoaded (p : CampaignProgress) (id : String) : Prop :=
  ∃ c, getKey p.contacts id = some c
    ∧ c.logs.isSome = true ∧ c.surveyLogs.isSome = true

theorem contactLoaded_backfillOne_self (p : CampaignProgress) (id : String) :
    contactLoaded (Store.backfillOne p id) id := by
  rcases hg : getKey p.contacts id with _ | c
  · rw [backfillOne_none p id hg]
    exact ⟨Store.freshContact id, getKey_setKey_self _ _ _, rfl, rfl⟩
  · rw [backfillOne_some p id c hg]
    refine ⟨Store.normalizeLogs c, getKey_setKey_self _ _ _, ?_, ?_⟩ <;>
      simp [Store.normalizeLogs]

theorem contactLoaded_backfillOne_mono (p : CampaignProgress) (id id' : String)
    (h : contactLoaded p id') : contactLoaded (Store.backfillOne p id) id' := by
  by_cases he : id' = id
  · subst he
    exact contactLoaded_backfillOne_self p id'
  · rcases h with ⟨c, hg, hl, hs⟩
    rcases hg2 : getKey p.contacts id with _ | c2
    · rw [backfillOne_none p id hg2]
      exact ⟨c, by rw [getKey_setKey_ne _ _ _ _ he]; exact hg, hl, hs⟩
    · rw [backfillOne_some p id c2 hg2]
      exact ⟨c, by rw [getKey_setKey_ne _ _ _ _ he]; exact hg, hl, hs⟩

theorem contactLoaded_backfill_mono (p : CampaignProgress) (ids : List String)
    (id : String) (h : contactLoaded p id) :
    contactLoaded (ids.foldl Store.backfillOne p) id := by
  induction ids generalizing p with
  | nil => exact h
  | cons a rest ih =>
      simp only [List.foldl_cons]
      exact ih _ (contactLoaded_backfillOne_mono p a id h)

theorem contactLoaded_backfill (p : CampaignProgress) (ids : List String) :
    ∀ id ∈ ids, contactLoaded (ids.foldl Store.backfillOne p) id := by
  induction ids generalizing p with
  | nil =>
      intro id h
      cases h
  | cons a rest ih =>
      intro id hid
      simp only [List.foldl_cons]
      rcases List.mem_cons.mp hid with he | hmem
      · subst he
        exact contactLoaded_backfill_mono _ rest id
          (contactLoaded_backfillOne_self p id)
      · exact ih _ id hmem

theorem getKey_foldl_fresh_of_not_mem (ids : List String)
    (m : List (String × ContactProgress)) (id : String) (h : id ∉ ids) :
    getKey (ids.foldl (fun acc i => setKey acc i (Store.freshContact i)) m) id =
      getKey m id := by
  induction ids generalizing m with
  | nil => rfl
  | cons a rest ih =>
      simp only [List.foldl_cons]
      have hne : id ≠ a := fun he => h (by simp [he])
      rw [ih _ (fun hm => h (List.mem_cons_of_mem _ hm))]
      exact getKey_setKey_ne m a id (Store.freshContact a) hne

theorem getKey_foldl_fresh_mem (ids : List String) :
    ∀ (m : List (String × ContactProgress)) (id : String), id ∈ ids →
    getKey (ids.foldl (fun acc i => setKey acc i (Store.freshContact i)) m) id =
      some (Store.freshContact id) := by
  induction ids with
  | nil =>
      intro m id h
      cases h
  | cons a rest ih =>
      intro m id h
      simp only [List.foldl_cons]
      by_cases hm : id ∈ rest
      · exact ih _ id hm
      · have he : id = a := by
          rcases List.mem_cons.mp h with h1 | h1
          · exact h1
          · exact absurd h1 hm
        subst he
        rw [getKey_foldl_fresh_of_not_mem rest _ id hm, getKey_setKey_self]

theorem getKey_initProgress (cid : String) (ids : List String) (id : String)
    (h : id ∈ ids) :
    getKey (Store.initProgress cid ids).contacts id =
      some (Store.freshContact id) := by
  unfold Store.initProgress
  simp only
  exact getKey_foldl_fresh_mem ids [] id h

theorem contactLoaded_loadOrInit (stored : Option CampaignProgress)
    (cid : String) (ids : List String) :
    ∀ id ∈ ids, contactLoaded (Store.loadOrInitProgress stored cid ids) id := by
  intro id h
  cases stored with
  | none =>
      exact ⟨Store.freshContact id, getKey_initProgress cid ids id h, rfl, rfl⟩
  | some p => exact contactLoaded_backfill p ids id h

theorem backfillOne_eq_of_loaded (p : CampaignProgress) (id : String)
    (h : contactLoaded p id) : Store.backfillOne p id = p := by
  rcases h with ⟨c, hg, hl, hs⟩
  rw [backfillOne_some p id c hg]
  have hc : Store.normalizeLogs c = c := by
    rcases hlo : c.logs with _ | l
    · rw [hlo] at hl
      cases hl
    · rcases hso : c.surveyLogs with _ | sl
      · rw [hso] at hs
        cases hs
      · cases c
        simp_all [Store.normalizeLogs]
  rw [hc, setKey_eq_of_getKey _ _ _ hg]

theorem backfill_eq_of_loaded (p : CampaignProgress) (ids : List String)
    (h : ∀ id ∈ ids, contactLoaded p id) :
    ids.foldl Store.backfillOne p = p := by
  induction ids with
  | nil => rfl
  | cons a rest ih =>
      simp only [List.foldl_cons]
      rw [backfillOne_eq_of_loaded p a (h a (List.mem_cons_self _ _))]
      exact ih (fun id hid => h id (List.mem_cons_of_mem _ hid))

/-- C7: `loadOrInit` is idempotent — feeding its result back as the stored
snapshot with the same `queueIds` reproduces the identical snapshot (same
totals, same contact keys, same per-contact state); the second call changes
nothing beyond the backfill check. -/
theorem loadOrInit_idempotent (stored : Option CampaignProgress)
    (cid : String) (ids : List String) :
    Store.loadOrInitProgress (some (Store.loadOrInitProgress stored cid ids))
        cid ids =
      Store.loadOrInitProgress stored cid ids := by
  show ids.foldl Store.backfillOne _ = _
  exact backfill_eq_of_loaded _ ids (contactLoaded_loadOrInit stored cid ids)

/-! ## Report timestamp resolution (claims C8, C9) -/

theorem find?_eq_head?_filter {α : Type} (p : α → Bool) (l : List α) :
    l.find? p = (l.filter p).head? := by
  induction l with
  | nil => rfl
  | cons a t ih =>
      by_cases h : p a
      · rw [List.find?_cons_of_pos _ h, List.filter_cons, if_pos h]
        rfl
      · rw [List.find?_cons_of_neg _ h, List.filter_cons, if_neg h]
        exact ih

theorem reverse_find?_eq_filter_getLast? {α : Type} (p : α → Bool)
    (l : List α) : l.reverse.find? p = (l.filter p).getLast? := by
  rw [find?_eq_head?_filter, List.filter_reverse, List.head?_reverse]

namespace Report

/-- Spec-side description of the survey component of the summary-report
timestamp: the `at` of the latest survey log entry whose answer equals the
contact's current `surveyAnswer` (none when `surveyAnswer` is unset or
nothing matches). -/
def latestMatching (c : ContactProgress) : Option Nat :=
  match c.surveyAnswer with
  | none => none
  | some a =>
      (((c.surveyLogs.getD []).filter (fun e => e.answer == a)).getLast?).map
        (fun e => e.«at»)

end Report

theorem lastTimestampForAnswer_eq_latestMatching (c : ContactProgress)
    (hsa : c.surveyAnswer ≠ some "") :
    Report.lastTimestampForAnswer (some c) c.surveyAnswer =
      Report.latestMatching c := by
  rcases hans : c.surveyAnswer with _ | a
  · simp [Report.lastTimestampForAnswer, Report.latestMatching, hans]
  · have ha : ¬(a = "") := fun he => hsa (by rw [hans, he])
    simp only [Report.lastTimestampForAnswer, Report.latestMatching, hans,
      show ((some c).bind fun x => x.surveyLogs) = c.surveyLogs from rfl]
    by_cases hemp : (c.surveyLogs.getD []).isEmpty = true
    · rw [if_pos (Or.inl hemp)]
      rw [List.isEmpty_iff.mp hemp]
      simp
    · rw [if_neg (by simp [hemp, ha])]
      rw [reverse_find?_eq_filter_getLast?]

theorem latestMatching_pos (c : ContactProgress)
    (hlg : ∀ e ∈ c.surveyLogs.getD [], 0 < e.«at») :
    ∀ t, Report.latestMatching c = some t → 0 < t := by
  intro t ht
  unfold Report.latestMatching at ht
  rcases hans : c.surveyAnswer with _ | a
  · rw [hans] at ht
    cases ht
  · rw [hans] at ht
    rcases Option.map_eq_some'.mp ht with ⟨e, hlast, hat⟩
    have hmem : e ∈ (c.surveyLogs.getD []).filter (fun e => e.answer == a) :=
      List.mem_of_mem_getLast? hlast
    have := hlg e (List.mem_filter.mp hmem).1
    rw [hat] at this
    exact this

/-- C8: the summary report's `Timestamp` cell renders the maximum of
`lastCalledAt` and the `at` of the latest survey log entry whose answer
equals the contact's current `surveyAnswer`, and is empty when both are
absent. -/
theorem summary_timestamp_is_max (iso : Nat → String) (c : ContactProgress)
    (hca : ∀ t, c.lastCalledAt = some t → 0 < t)
    (hlg : ∀ e ∈ c.surveyLogs.getD [], 0 < e.«at»)
    (hsa : c.surveyAnswer ≠ some "") :
    (c.lastCalledAt = none ∧ Report.latestMatching c = none →
      Report.summaryTimestampCell iso (some c) = "")
    ∧ (∀ t, c.lastCalledAt = some t →
      Report.summaryTimestampCell iso (some c) =
        iso (max t ((Report.latestMatching c).getD 0)))
    ∧ (∀ t, c.lastCalledAt = none → Report.latestMatching c = some t →
      Report.summaryTimestampCell iso (some c) = iso t) := by
  have hcode : Report.summaryTimestamp (some c) =
      max ((c.lastCalledAt).getD 0) ((Report.latestMatching c).getD 0) := by
    unfold Report.summaryTimestamp
    rw [show (some c).bind (fun x => x.surveyAnswer) = c.surveyAnswer from rfl]
    rw [lastTimestampForAnswer_eq_latestMatching c hsa]
    rfl
  refine ⟨?_, ?_, ?_⟩
  · rintro ⟨h1, h2⟩
    unfold Report.summaryTimestampCell
    rw [hcode, h1, h2]
    simp
  · intro t ht
    have hpos : 0 < t := hca t ht
    unfold Report.summaryTimestampCell
    rw [hcode, ht]
    have : max ((some t).getD 0) ((Report.latestMatching c).getD 0) =
        max t ((Report.latestMatching c).getD 0) := rfl
    rw [this]
    rw [if_pos (by omega)]
  · intro t h1 h2
    have hpos : 0 < t := latestMatching_pos c hlg t h2
    unfold Report.summaryTimestampCell
    rw [hcode, h1, h2]
    have : max ((none : Option Nat).getD 0) ((some t).getD 0) = t := by
      simp
    rw [this]
    rw [if_pos (by omega)]

/-- The C8 example contact: `lastCalledAt = 100`, one survey log entry
`{at: 50, answer: "Yes"}`, `surveyAnswer = "Yes"`. -/
def reportExampleContact : ContactProgress :=
  { contactId := "x", lastCalledAt := some 100, surveyAnswer := some "Yes",
    surveyLogs := some [{ «at» := 50, answer := "Yes" }] }

/-- Witness for C8: the example contact's cell renders `100` (the max), not
`50`. -/
theorem summary_timestamp_is_max_witness :
    Report.summaryTimestampCell (fun t => toString t)
      (some reportExampleContact) = toString 100 := by
  have h := (summary_timestamp_is_max (fun t => toString t)
    reportExampleContact (by decide) (by decide) (by decide)).2.1 100 rfl
  exact h.trans (by decide)

/-- C9: the cloud row's timestamp is the `at` of the last survey log entry
whenever `surveyLogs` is non-empty — even when `lastCalledAt` is later —
and falls back to `lastCalledAt` (or empty) only when `surveyLogs` is
empty or absent. -/
theorem cloud_timestamp_prefers_survey (iso : Nat → String)
    (c : ContactProgress)
    (hlg : ∀ e ∈ c.surveyLogs.getD [], 0 < e.«at»)
    (hca : ∀ t, c.lastCalledAt = some t → 0 < t) :
    (∀ e, (c.surveyLogs.getD []).getLast? = some e →
      Cloud.cloudTimestampCell iso (some c) = iso e.«at»)
    ∧ (c.surveyLogs.getD [] = [] → ∀ t, c.lastCalledAt = some t →
      Cloud.cloudTimestampCell iso (some c) = iso t)
    ∧ (c.surveyLogs.getD [] = [] → c.lastCalledAt = none →
      Cloud.cloudTimestampCell iso (some c) = "") := by
  have hlst : Cloud.lastSurveyTimestamp (some c) =
      ((c.surveyLogs.getD []).getLast?).map (fun e => e.«at») := rfl
  refine ⟨?_, ?_, ?_⟩
  · intro e he
    have hpos : 0 < e.«at» := hlg e (List.mem_of_mem_getLast? he)
    have h1 : Cloud.cloudTimestamp (some c) = some e.«at» := by
      unfold Cloud.cloudTimestamp
      rw [hlst, he]
      rfl
    unfold Cloud.cloudTimestampCell
    rw [h1]
    show (if e.«at» ≠ 0 then iso e.«at» else "") = iso e.«at»
    rw [if_pos (by omega)]
  · intro hemp t ht
    have hpos : 0 < t := hca t ht
    have h1 : Cloud.cloudTimestamp (some c) = some t := by
      unfold Cloud.cloudTimestamp
      rw [hlst, hemp]
      show c.lastCalledAt = some t
      exact ht
    unfold Cloud.cloudTimestampCell
    rw [h1]
    show (if t ≠ 0 then iso t else "") = iso t
    rw [if_pos (by omega)]
  · intro hemp hca2
    have h1 : Cloud.cloudTimestamp (some c) = none := by
      unfold Cloud.cloudTimestamp
      rw [hlst, hemp]
      show c.lastCalledAt = none
      exact hca2
    unfold Cloud.cloudTimestampCell
    rw [h1]

/-- The C9 example contact: `lastCalledAt = 200` is *later* than the single
survey log entry at `50`, yet the survey entry wins. -/
def cloudExampleContact : ContactProgress :=
  { contactId := "x", lastCalledAt := some 200, surveyAnswer := some "Yes",
    surveyLogs := some [{ «at» := 50, answer := "Yes" }] }

/-- Witness for C9: the cloud row for the example contact renders `50`
(the last survey log entry), not the later `lastCalledAt = 200`. -/
theorem cloud_timestamp_prefers_survey_witness :
    Cloud.cloudTimestampCell (fun t => toString t)
      (some cloudExampleContact) = toString 50 := by
  have h := (cloud_timestamp_prefers_survey (fun t => toString t)
    cloudExampleContact (by decide) (by decide)).1
    { «at» := 50, answer := "Yes" } rfl
  exact h

/-! ## CSV export on a missing snapshot (claim C10) -/

/-- C10: for a campaign with no stored progress snapshot, `exportSurveyCSV`
returns exactly the header `contactId,answer,timestamp` plus a trailing
newline and `exportCallOutcomesCSV` exactly `contactId,outcome,timestamp`
plus a trailing newline; neither fails with `NotInitialized` (both are total
on the `none` snapshot, unlike the mutating and summary-reading
operations). -/
theorem export_csv_headers_when_uninitialized :
    (∀ iso, Store.exportSurveyCSV none iso = "contactId,answer,timestamp\n")
    ∧ (∀ iso, Store.exportCallOutcomesCSV none iso =
        "contactId,outcome,timestamp\n") :=
  ⟨fun _ => rfl, fun _ => rfl⟩
